import Mathlib

/-!
Verification of the intro.js-react Steps component, a React lifecycle
adapter around the external intro.js tour engine, embedded shallowly
from src/components/Steps/index.js.

The adapter methods are modelled as pure functions over an explicit
adapter state (the isConfigured and isVisible flags), the observable
engine state, and the declarative props.  Every call into the engine,
every update of the isVisible flag and every invocation of a consumer
callback is recorded in an explicit list of actions, so that the
ordering claims of the specification become facts about the emitted
trace.  A small operation machine then runs arbitrary sequences of
prop updates, engine events and utility calls for the invariant and
temporal claims.
-/

namespace IntroReact

/-- A live DOM element, identified abstractly by a tag. -/
structure Element where
  tag : String

deriving instance DecidableEq for Element

/-- A renderable (React) node handed to a step as intro content.  The
external rich-content renderer collaborator turns such a node into
static markup; the node carries that rendering as its data. -/
structure RNode where
  markup : String

deriving instance DecidableEq for RNode

/-- The intro content of a step: a plain string, or a renderable node
that the engine cannot consume directly. -/
inductive Intro where
  | txt (s : String)
  | node (n : RNode)

deriving instance DecidableEq for Intro

/-- Modelled from the spec: React isValidElement, true exactly on
renderable nodes and false on plain strings. -/
def isValidElement : Intro → Bool
  | .node _ => true
  | .txt _ => false

/-- Modelled from the spec: the rich-content renderer collaborator
(ReactDOMServer renderToStaticMarkup), returning the static markup of a
renderable node.  The adapter only applies it under an isValidElement
guard, so the string branch is never reached from the adapter. -/
def renderToStaticMarkup : Intro → String
  | .node n => n.markup
  | .txt s => s

/-- One declarative step, as accepted by the Steps component props. -/
structure Step where
  element : String
  intro : Intro
  position : Option String
  tooltipClass : Option String
  highlightClass : Option String

deriving instance DecidableEq for Step

/-- The TourOptions record.  Engine-recognized keys are an uninterpreted
pass-through carried in keys; a possible steps entry of the record is
carried separately so the spread-override in configureIntroJs can be
stated. -/
structure Options where
  keys : List (String × String)
  steps : Option (List Step)

deriving instance DecidableEq for Options

/-- The object pushed into the engine by setOptions: all option keys
together with the synthesized steps key. -/
structure ConfiguredOptions where
  keys : List (String × String)
  steps : List Step

deriving instance DecidableEq for ConfiguredOptions

/-- The object spread in configureIntroJs: every key of options, with
the steps key overridden by the synthesized steps array. -/
def mergeConfig (o : Options) (steps : List Step) : ConfiguredOptions :=
  { keys := o.keys, steps := steps }

/-- One entry of the internal engine item list.  The data field stands
for the remaining per-item engine data that the adapter never touches. -/
structure IntroItem where
  element : Option Element
  position : String
  data : String

deriving instance DecidableEq for IntroItem

/-- The externally observable engine state the adapter reads or writes:
the readable current step index, the effective configuration stored by
setOptions, and the internal item list. -/
structure EngineState where
  _currentStep : Nat
  _options : ConfiguredOptions
  _introItems : List IntroItem

deriving instance DecidableEq for EngineState

/-- Modelled from the spec: the effect of the imperative engine
operations on the engine state.  The engine is an external collaborator,
so these effects are left abstract and every theorem holds for all of
them. -/
structure EngineModel where
  start : EngineState → EngineState
  exit : EngineState → EngineState
  goToStepNumber : Nat → EngineState → EngineState

/-- The declarative props of the Steps component.  stepsRef and
optionsRef model the JavaScript reference identity of the steps and
options objects, which componentDidUpdate compares with strict
inequality.  Consumer callbacks are modelled by presence flags, with a
result function where the adapter uses the returned value; a returned
Option Bool models a JavaScript return value that may be a boolean or
undefined. -/
structure Props where
  enabled : Bool
  initialStep : Nat
  steps : List Step
  stepsRef : Nat
  options : Options
  optionsRef : Nat
  hasOnStart : Bool
  onBeforeExitRet : Option (Nat → Option Bool)
  onBeforeChangeRet : Option (Nat → Element → Option Bool)
  hasOnAfterChange : Bool
  hasOnChange : Bool
  hasOnPreventChange : Bool
  hasOnComplete : Bool

/-- The adapter-owned flags set in the constructor. -/
structure AdapterState where
  isConfigured : Bool
  isVisible : Bool

deriving instance DecidableEq for AdapterState

/-- One observable action of the adapter: a call into the engine, an
update of the isVisible flag, or an invocation of a consumer callback
with the arguments it receives. -/
inductive Action where
  | engineStart
  | engineExit
  | engineGoTo (n : Nat)
  | engineSetOptions (cfg : ConfiguredOptions)
  | setVisible (b : Bool)
  | callOnStart (i : Nat)
  | callOnExit (i : Nat)
  | callOnBeforeExit (i : Nat)
  | callOnBeforeChange (i : Nat) (el : Element)
  | callOnAfterChange (i : Nat) (el : Element)
  | callOnChange (i : Nat) (el : Element)
  | callOnPreventChange (i : Nat)
  | callOnComplete

deriving instance DecidableEq for Action

/-- A callback deferred with setTimeout: the prevent-change callback,
which reads the current step of the engine when it eventually runs. -/
inductive Task where
  | preventChange

deriving instance DecidableEq for Task

/-- Running a deferred task against the engine state at the (later)
time of execution. -/
def runTask : Task → EngineState → Action
  | .preventChange, e => .callOnPreventChange e._currentStep

/-- JavaScript truthiness of the position fallback in updateStepElement:
position or auto, where both an absent position and the empty string are
falsy. -/
def orAuto : Option String → String
  | none => "auto"
  | some s => if s = "" then "auto" else s

namespace Steps

/-- Handler for the exit engine event: always sets isVisible to false
first, then relays to the required consumer onExit callback with the
current step index of the engine. -/
def onExit (s : AdapterState) (e : EngineState) : AdapterState × List Action :=
  ({ s with isVisible := false }, [.setVisible false, .callOnExit e._currentStep])

/-- Handler for the before-exit engine event: propagates the return
value of the consumer before-exit callback as-is when supplied, else
allows the exit. -/
def onBeforeExit (p : Props) (e : EngineState) : List Action × Option Bool :=
  match p.onBeforeExitRet with
  | some f => ([.callOnBeforeExit e._currentStep], f e._currentStep)
  | none => ([], some true)

/-- Handler for the before-change engine event: gated on isVisible;
when visible and a consumer before-change callback is supplied, calls it
with the current step index and the next element, schedules the
prevent-change callback on a strict-false return when one is supplied,
and propagates the returned value. -/
def onBeforeChange (p : Props) (s : AdapterState) (e : EngineState) (nextElement : Element) :
    List Action × List Task × Option Bool :=
  if s.isVisible = false then
    ([], [], some true)
  else
    match p.onBeforeChangeRet with
    | some f =>
      let continueStep := f e._currentStep nextElement
      if continueStep = some false ∧ p.hasOnPreventChange = true then
        ([.callOnBeforeChange e._currentStep nextElement], [.preventChange], continueStep)
      else
        ([.callOnBeforeChange e._currentStep nextElement], [], continueStep)
    | none => ([], [], some true)

/-- Handler for the after-change engine event: gated on isVisible, then
forwards to the optional consumer callback. -/
def onAfterChange (p : Props) (s : AdapterState) (e : EngineState) (element : Element) :
    List Action :=
  if s.isVisible = false then []
  else if p.hasOnAfterChange then [.callOnAfterChange e._currentStep element]
  else []

/-- Handler for the change engine event: gated on isVisible, then
forwards to the optional consumer callback. -/
def onChange (p : Props) (s : AdapterState) (e : EngineState) (element : Element) :
    List Action :=
  if s.isVisible = false then []
  else if p.hasOnChange then [.callOnChange e._currentStep element]
  else []

/-- Handler for the complete engine event: forwards unconditionally to
the optional consumer callback. -/
def onComplete (p : Props) : List Action :=
  if p.hasOnComplete then [.callOnComplete] else []

/-- updateStepElement: re-resolves the element of the step at stepIndex
through the document (dom models document.querySelector on the selector
stored in the engine options).  Returns none exactly where the
JavaScript would throw on an out-of-bounds index; a failed lookup is a
silent no-op. -/
def updateStepElement (dom : String → Option Element) (e : EngineState) (stepIndex : Nat) :
    Option EngineState :=
  match e._options.steps[stepIndex]? with
  | none => none
  | some step =>
    match dom step.element with
    | none => some e
    | some element =>
      match e._introItems[stepIndex]? with
      | none => none
      | some it =>
        let newItem : IntroItem :=
          { it with element := some element, position := orAuto step.position }
        some { e with _introItems := e._introItems.set stepIndex newItem }

/-- configureIntroJs: sanitize the steps by rendering any renderable
intro content to static markup, push the options merged with the
synthesized steps key into the engine through setOptions, and set
isConfigured. -/
def sanitizeStep (step : Step) : Step :=
  if isValidElement step.intro then
    { step with intro := .txt (renderToStaticMarkup step.intro) }
  else step

/-- configureIntroJs proper: storing the merged configuration models the
setOptions call of the engine, whose effective configuration is readable
back. -/
def configureIntroJs (p : Props) (s : AdapterState) (e : EngineState) :
    AdapterState × EngineState × List Action :=
  let cfg := mergeConfig p.options (p.steps.map sanitizeStep)
  ({ s with isConfigured := true },
   { e with _options := cfg },
   [.engineSetOptions cfg])

/-- renderSteps: the visibility re-evaluation.  When enabled with a
non-empty step list and not yet visible: start the engine, set
isVisible, jump to the one-based initial step, then invoke the optional
onStart callback with the resulting current step index of the engine.
When disabled while visible: clear isVisible first, then call the
engine exit. -/
def renderSteps (m : EngineModel) (p : Props) (s : AdapterState) (e : EngineState) :
    AdapterState × EngineState × List Action :=
  if p.enabled = true ∧ 0 < p.steps.length ∧ s.isVisible = false then
    let e2 := m.goToStepNumber (p.initialStep + 1) (m.start e)
    ({ s with isVisible := true }, e2,
      [.engineStart, .setVisible true, .engineGoTo (p.initialStep + 1)] ++
        (if p.hasOnStart then [.callOnStart e2._currentStep] else []))
  else if p.enabled = false ∧ s.isVisible = true then
    ({ s with isVisible := false }, m.exit e, [.setVisible false, .engineExit])
  else
    (s, e, [])

/-- Sequencing of two adapter phases: the second phase starts from the
adapter and engine state the first one produced, and the action traces
concatenate. -/
def andThen (x : AdapterState × EngineState × List Action)
    (f : AdapterState → EngineState → AdapterState × EngineState × List Action) :
    AdapterState × EngineState × List Action :=
  ((f x.1 x.2.1).1, (f x.1 x.2.1).2.1, x.2.2 ++ (f x.1 x.2.1).2.2)

/-- The configure-then-render sequence shared by componentDidMount and
componentDidUpdate. -/
def configureAndRender (m : EngineModel) (p : Props) (s : AdapterState) (e : EngineState) :
    AdapterState × EngineState × List Action :=
  andThen (configureIntroJs p s e) (renderSteps m p)

/-- componentDidMount: configure and render the steps when enabled at
mount time. -/
def componentDidMount (m : EngineModel) (p : Props) (s : AdapterState) (e : EngineState) :
    AdapterState × EngineState × List Action :=
  if p.enabled = true then configureAndRender m p s e
  else (s, e, [])

/-- The first block of componentDidUpdate: reconfigure and re-render
when the adapter is unconfigured or the steps or options reference
changed. -/
def updateConfigPhase (m : EngineModel) (prevProps p : Props) (s : AdapterState)
    (e : EngineState) : AdapterState × EngineState × List Action :=
  if s.isConfigured = false ∨ prevProps.stepsRef ≠ p.stepsRef ∨
      prevProps.optionsRef ≠ p.optionsRef then
    configureAndRender m p s e
  else (s, e, ([] : List Action))

/-- componentDidUpdate: the configuration block, then a re-render when
the enabled flag changed. -/
def componentDidUpdate (m : EngineModel) (prevProps p : Props) (s : AdapterState)
    (e : EngineState) : AdapterState × EngineState × List Action :=
  if prevProps.enabled ≠ p.enabled then
    andThen (updateConfigPhase m prevProps p s e) (renderSteps m p)
  else updateConfigPhase m prevProps p s e

end Steps

/-- The adapter state produced by the constructor. -/
def mkAdapter : AdapterState :=
  { isConfigured := false, isVisible := false }

/-- The machine state reachable while the component is mounted: current
props, adapter flags, engine state, the accumulated action trace, and
the deferred tasks scheduled so far. -/
structure MachineState where
  props : Props
  adapter : AdapterState
  engine : EngineState
  trace : List Action
  tasks : List Task

/-- One adapter operation or engine event.  A drift operation models the
autonomous evolution of the external engine between adapter operations;
it involves no adapter code. -/
inductive Op where
  | update (p : Props)
  | exitEvt
  | beforeExitEvt
  | beforeChangeEvt (nextElement : Element)
  | afterChangeEvt (element : Element)
  | changeEvt (element : Element)
  | completeEvt
  | rebind (dom : String → Option Element) (stepIndex : Nat)
  | drift (f : EngineState → EngineState)

/-- The actions one operation emits from a given machine state. -/
def opActions (m : EngineModel) (st : MachineState) : Op → List Action
  | .update p => (Steps.componentDidUpdate m st.props p st.adapter st.engine).2.2
  | .exitEvt => (Steps.onExit st.adapter st.engine).2
  | .beforeExitEvt => (Steps.onBeforeExit st.props st.engine).1
  | .beforeChangeEvt nextElement =>
      (Steps.onBeforeChange st.props st.adapter st.engine nextElement).1
  | .afterChangeEvt element => Steps.onAfterChange st.props st.adapter st.engine element
  | .changeEvt element => Steps.onChange st.props st.adapter st.engine element
  | .completeEvt => Steps.onComplete st.props
  | .rebind _ _ => []
  | .drift _ => []

/-- The effect of one operation on the machine state. -/
def runOp (m : EngineModel) (st : MachineState) (op : Op) : MachineState :=
  match op with
  | .update p =>
    let r := Steps.componentDidUpdate m st.props p st.adapter st.engine
    { st with props := p, adapter := r.1, engine := r.2.1, trace := st.trace ++ r.2.2 }
  | .exitEvt =>
    let r := Steps.onExit st.adapter st.engine
    { st with adapter := r.1, trace := st.trace ++ r.2 }
  | .beforeExitEvt =>
    { st with trace := st.trace ++ (Steps.onBeforeExit st.props st.engine).1 }
  | .beforeChangeEvt nextElement =>
    let r := Steps.onBeforeChange st.props st.adapter st.engine nextElement
    { st with trace := st.trace ++ r.1, tasks := st.tasks ++ r.2.1 }
  | .afterChangeEvt element =>
    { st with trace := st.trace ++ Steps.onAfterChange st.props st.adapter st.engine element }
  | .changeEvt element =>
    { st with trace := st.trace ++ Steps.onChange st.props st.adapter st.engine element }
  | .completeEvt =>
    { st with trace := st.trace ++ Steps.onComplete st.props }
  | .rebind dom stepIndex =>
    match Steps.updateStepElement dom st.engine stepIndex with
    | some e2 => { st with engine := e2 }
    | none => st
  | .drift f => { st with engine := f st.engine }

/-- The machine state right after construction and componentDidMount. -/
def initState (m : EngineModel) (p : Props) (e : EngineState) : MachineState :=
  let r := Steps.componentDidMount m p mkAdapter e
  { props := p, adapter := r.1, engine := r.2.1, trace := r.2.2, tasks := [] }

/-- Running a sequence of operations. -/
def run (m : EngineModel) (st : MachineState) (ops : List Op) : MachineState :=
  ops.foldl (runOp m) st

/-- One fold step of the trace-derived visibility: an engine start turns
it on, an engine exit call or a relayed exit event turns it off, and
every other action leaves it unchanged. -/
def visStep (v : Bool) (a : Action) : Bool :=
  match a with
  | .engineStart => true
  | .engineExit => false
  | .callOnExit _ => false
  | _ => v

/-- Whether a trace ends in a started tour: an engine start was issued
and no exit (engine exit call or relayed exit event) occurred since. -/
def visOfTrace (tr : List Action) : Bool :=
  tr.foldl visStep false

/-- Actions that invoke a consumer callback. -/
def isConsumerCall : Action → Bool
  | .callOnStart _ => true
  | .callOnExit _ => true
  | .callOnBeforeExit _ => true
  | .callOnBeforeChange _ _ => true
  | .callOnAfterChange _ _ => true
  | .callOnChange _ _ => true
  | .callOnPreventChange _ => true
  | .callOnComplete => true
  | _ => false

/-- Actions that update the isVisible flag. -/
def isSetVisible : Action → Bool
  | .setVisible _ => true
  | _ => false

/-- No update of the isVisible flag occurs after a consumer callback in
the list: every callback observes the already-updated flag. -/
def setVisibleBeforeCalls : List Action → Bool
  | [] => true
  | a :: rest =>
    if isConsumerCall a then rest.all (fun b => !isSetVisible b)
    else setVisibleBeforeCalls rest

/-- Actions that push a configuration into the engine. -/
def isSetOptionsAct : Action → Bool
  | .engineSetOptions _ => true
  | _ => false

/-- How many times a trace pushed a configuration into the engine. -/
def countSetOptions (tr : List Action) : Nat :=
  tr.countP isSetOptionsAct

/-- The reference pair componentDidUpdate compares. -/
def pairOf (p : Props) : Nat × Nat :=
  (p.stepsRef, p.optionsRef)

/-- The reference pairs of the prop updates in an operation sequence. -/
def updatePairs : List Op → List (Nat × Nat)
  | [] => []
  | .update p :: rest => pairOf p :: updatePairs rest
  | _ :: rest => updatePairs rest

/-- How many of the successive pairs differ from their predecessor,
starting from a given previous pair. -/
def changesFrom (prev : Nat × Nat) : List (Nat × Nat) → Nat
  | [] => 0
  | q :: rest => (if q ≠ prev then 1 else 0) + changesFrom q rest

/-- The number of distinct consecutive (steps reference, options
reference) pairs over a whole mounted lifetime. -/
def distinctPairCount (p : Props) (ops : List Op) : Nat :=
  1 + changesFrom (pairOf p) (updatePairs ops)

/-- The engine item produced by a successful re-bind: the found element
together with the configured position falling back to auto. -/
def itemRebound (it : IntroItem) (el : Element) (step : Step) : IntroItem :=
  { it with element := some el, position := orAuto step.position }

/-- A sample step with plain string content. -/
def sampleStep : Step :=
  { element := "#a", intro := .txt "hello", position := none,
    tooltipClass := none, highlightClass := none }

/-- A sample step with renderable node content. -/
def sampleStepB : Step :=
  { element := "#b", intro := .node { markup := "<b>rich</b>" }, position := some "top",
    tooltipClass := none, highlightClass := none }

/-- A sample options record. -/
def sampleOptions : Options :=
  { keys := [("showButtons", "false")], steps := none }

/-- A concrete engine model whose operations leave the engine state
unchanged, used to instantiate universally quantified statements. -/
def idEngineModel : EngineModel :=
  { start := fun e => e, exit := fun e => e, goToStepNumber := fun _ e => e }

/-- A concrete engine state. -/
def sampleEngine : EngineState :=
  { _currentStep := 0, _options := { keys := [], steps := [] }, _introItems := [] }

/-- Concrete props for an enabled tour with two steps. -/
def startProps : Props :=
  { enabled := true, initialStep := 1, steps := [sampleStep, sampleStepB], stepsRef := 3,
    options := sampleOptions, optionsRef := 4, hasOnStart := true, onBeforeExitRet := none,
    onBeforeChangeRet := none, hasOnAfterChange := true, hasOnChange := true,
    hasOnPreventChange := true, hasOnComplete := true }

/-- Concrete props that are disabled but otherwise like startProps. -/
def disabledProps : Props :=
  { startProps with enabled := false }

/-- A consumer before-change callback that always vetoes. -/
def vetoFun : Nat → Element → Option Bool :=
  fun _ _ => some false

/-- Concrete props whose before-change callback vetoes and that supply a
prevent-change callback. -/
def vetoProps : Props :=
  { startProps with onBeforeChangeRet := some vetoFun }

/-- The adapter state of a configured, visible tour. -/
def visibleAdapter : AdapterState :=
  { isConfigured := true, isVisible := true }

/-- Concrete enabled props with an empty step list. -/
def emptyProps : Props :=
  { startProps with steps := [] }

/-- Concrete props mounted disabled, with reference pair (0, 0). -/
def mountDisabledProps : Props :=
  { startProps with enabled := false, stepsRef := 0, optionsRef := 0 }

/-- The same props after replacing the steps object, reference pair
(1, 0), still disabled. -/
def movedRefProps : Props :=
  { mountDisabledProps with stepsRef := 1 }

/-- Concrete disabled props with an empty step list. -/
def emptyDisabledProps : Props :=
  { emptyProps with enabled := false }

/-- A concrete machine state whose adapter is already configured and
visible. -/
def confSampleState : MachineState :=
  { props := startProps, adapter := visibleAdapter, engine := sampleEngine,
    trace := [], tasks := [] }

/-- A sample DOM element. -/
def sampleEl : Element :=
  { tag := "div" }

/-- A sample document: only the selector of sampleStepB resolves. -/
def sampleDom : String → Option Element :=
  fun s => if s = "#b" then some sampleEl else none

/-- A sample engine item. -/
def sampleItem : IntroItem :=
  { element := none, position := "left", data := "x" }

/-- A concrete engine state after a configuration with two steps. -/
def rebindEngine : EngineState :=
  { _currentStep := 0, _options := { keys := [], steps := [sampleStep, sampleStepB] },
    _introItems := [sampleItem, sampleItem] }

/-- Folding the trace-visibility over an appended trace continues from
the value reached on the first part. -/
theorem foldl_visStep_append (l r : List Action) (v : Bool) :
    (l ++ r).foldl visStep v = r.foldl visStep (l.foldl visStep v) := by
  simp [List.foldl_append]

/-- configureIntroJs leaves isVisible where the fold of its emitted
actions leaves the trace-visibility. -/
theorem vis_configure (p : Props) (s : AdapterState) (e : EngineState) :
    ((Steps.configureIntroJs p s e).1).isVisible
      = ((Steps.configureIntroJs p s e).2.2).foldl visStep s.isVisible := by
  simp [Steps.configureIntroJs, visStep]

/-- renderSteps leaves isVisible where the fold of its emitted actions
leaves the trace-visibility. -/
theorem vis_renderSteps (m : EngineModel) (p : Props) (s : AdapterState) (e : EngineState) :
    ((Steps.renderSteps m p s e).1).isVisible
      = ((Steps.renderSteps m p s e).2.2).foldl visStep s.isVisible := by
  unfold Steps.renderSteps
  split
  · by_cases h : p.hasOnStart <;> simp [h, visStep]
  · split
    · simp [visStep]
    · simp

/-- Sequencing preserves the correspondence between isVisible and the
trace-visibility fold. -/
theorem vis_andThen (x : AdapterState × EngineState × List Action)
    (f : AdapterState → EngineState → AdapterState × EngineState × List Action) (v : Bool)
    (hx : x.1.isVisible = x.2.2.foldl visStep v)
    (hf : ∀ s e, ((f s e).1).isVisible = ((f s e).2.2).foldl visStep s.isVisible) :
    ((Steps.andThen x f).1).isVisible = ((Steps.andThen x f).2.2).foldl visStep v := by
  show ((f x.1 x.2.1).1).isVisible = (x.2.2 ++ (f x.1 x.2.1).2.2).foldl visStep v
  rw [foldl_visStep_append, ← hx, hf]

/-- configureAndRender preserves the visibility correspondence. -/
theorem vis_configureAndRender (m : EngineModel) (p : Props) (s : AdapterState)
    (e : EngineState) :
    ((Steps.configureAndRender m p s e).1).isVisible
      = ((Steps.configureAndRender m p s e).2.2).foldl visStep s.isVisible :=
  vis_andThen (Steps.configureIntroJs p s e) (Steps.renderSteps m p) s.isVisible
    (vis_configure p s e) (fun s2 e2 => vis_renderSteps m p s2 e2)

/-- componentDidMount preserves the visibility correspondence. -/
theorem vis_mount (m : EngineModel) (p : Props) (s : AdapterState) (e : EngineState) :
    ((Steps.componentDidMount m p s e).1).isVisible
      = ((Steps.componentDidMount m p s e).2.2).foldl visStep s.isVisible := by
  unfold Steps.componentDidMount
  split
  · exact vis_configureAndRender m p s e
  · rfl

/-- The configuration block of componentDidUpdate preserves the
visibility correspondence. -/
theorem vis_updateConfigPhase (m : EngineModel) (prev p : Props) (s : AdapterState)
    (e : EngineState) :
    ((Steps.updateConfigPhase m prev p s e).1).isVisible
      = ((Steps.updateConfigPhase m prev p s e).2.2).foldl visStep s.isVisible := by
  unfold Steps.updateConfigPhase
  split
  · exact vis_configureAndRender m p s e
  · rfl

/-- componentDidUpdate preserves the visibility correspondence. -/
theorem vis_update (m : EngineModel) (prev p : Props) (s : AdapterState) (e : EngineState) :
    ((Steps.componentDidUpdate m prev p s e).1).isVisible
      = ((Steps.componentDidUpdate m prev p s e).2.2).foldl visStep s.isVisible := by
  unfold Steps.componentDidUpdate
  split
  · exact vis_andThen (Steps.updateConfigPhase m prev p s e) (Steps.renderSteps m p)
      s.isVisible (vis_updateConfigPhase m prev p s e) (fun s2 e2 => vis_renderSteps m p s2 e2)
  · exact vis_updateConfigPhase m prev p s e

/-- The before-exit handler emits only fold-neutral actions. -/
theorem foldl_visStep_onBeforeExit (p : Props) (e : EngineState) (v : Bool) :
    ((Steps.onBeforeExit p e).1).foldl visStep v = v := by
  cases h : p.onBeforeExitRet <;> simp [Steps.onBeforeExit, h, visStep]

/-- The before-change handler emits only fold-neutral actions. -/
theorem foldl_visStep_onBeforeChange (p : Props) (s : AdapterState) (e : EngineState)
    (el : Element) (v : Bool) :
    ((Steps.onBeforeChange p s e el).1).foldl visStep v = v := by
  unfold Steps.onBeforeChange
  split
  · rfl
  · split
    next f hf =>
      by_cases hc : f e._currentStep el = some false ∧ p.hasOnPreventChange = true <;>
        simp [hc, visStep]
    next => rfl

/-- The after-change handler emits only fold-neutral actions. -/
theorem foldl_visStep_onAfterChange (p : Props) (s : AdapterState) (e : EngineState)
    (el : Element) (v : Bool) :
    (Steps.onAfterChange p s e el).foldl visStep v = v := by
  unfold Steps.onAfterChange
  split
  · rfl
  · split <;> simp [visStep]

/-- The change handler emits only fold-neutral actions. -/
theorem foldl_visStep_onChange (p : Props) (s : AdapterState) (e : EngineState)
    (el : Element) (v : Bool) :
    (Steps.onChange p s e el).foldl visStep v = v := by
  unfold Steps.onChange
  split
  · rfl
  · split <;> simp [visStep]

/-- The complete handler emits only fold-neutral actions. -/
theorem foldl_visStep_onComplete (p : Props) (v : Bool) :
    (Steps.onComplete p).foldl visStep v = v := by
  unfold Steps.onComplete
  split <;> simp [visStep]

/-- One machine operation preserves the correspondence between the
isVisible flag and the trace-visibility of the accumulated trace. -/
theorem vis_runOp (m : EngineModel) (st : MachineState) (op : Op)
    (h : st.adapter.isVisible = visOfTrace st.trace) :
    ((runOp m st op).adapter).isVisible = visOfTrace (runOp m st op).trace := by
  cases op with
  | update p =>
    show ((Steps.componentDidUpdate m st.props p st.adapter st.engine).1).isVisible
      = visOfTrace (st.trace ++ (Steps.componentDidUpdate m st.props p st.adapter st.engine).2.2)
    rw [visOfTrace, foldl_visStep_append, ← visOfTrace, ← h]
    exact vis_update m st.props p st.adapter st.engine
  | exitEvt =>
    show false = visOfTrace (st.trace ++ (Steps.onExit st.adapter st.engine).2)
    rw [visOfTrace, foldl_visStep_append]
    simp [Steps.onExit, visStep]
  | beforeExitEvt =>
    show st.adapter.isVisible
      = visOfTrace (st.trace ++ (Steps.onBeforeExit st.props st.engine).1)
    rw [visOfTrace, foldl_visStep_append, foldl_visStep_onBeforeExit, ← visOfTrace, h]
  | beforeChangeEvt el =>
    show st.adapter.isVisible
      = visOfTrace (st.trace ++ (Steps.onBeforeChange st.props st.adapter st.engine el).1)
    rw [visOfTrace, foldl_visStep_append, foldl_visStep_onBeforeChange, ← visOfTrace, h]
  | afterChangeEvt el =>
    show st.adapter.isVisible
      = visOfTrace (st.trace ++ Steps.onAfterChange st.props st.adapter st.engine el)
    rw [visOfTrace, foldl_visStep_append, foldl_visStep_onAfterChange, ← visOfTrace, h]
  | changeEvt el =>
    show st.adapter.isVisible
      = visOfTrace (st.trace ++ Steps.onChange st.props st.adapter st.engine el)
    rw [visOfTrace, foldl_visStep_append, foldl_visStep_onChange, ← visOfTrace, h]
  | completeEvt =>
    show st.adapter.isVisible = visOfTrace (st.trace ++ Steps.onComplete st.props)
    rw [visOfTrace, foldl_visStep_append, foldl_visStep_onComplete, ← visOfTrace, h]
  | rebind dom i =>
    cases hm : Steps.updateStepElement dom st.engine i <;> simp [runOp, hm, h]
  | drift f =>
    exact h

/-- Running any operation sequence preserves the visibility
correspondence. -/
theorem vis_run (m : EngineModel) (ops : List Op) :
    ∀ st : MachineState, st.adapter.isVisible = visOfTrace st.trace →
    ((run m st ops).adapter).isVisible = visOfTrace (run m st ops).trace := by
  induction ops with
  | nil => exact fun st h => h
  | cons op rest ih => exact fun st h => ih (runOp m st op) (vis_runOp m st op h)

/-- The visibility correspondence holds right after mounting. -/
theorem vis_init (m : EngineModel) (p : Props) (e : EngineState) :
    ((initState m p e).adapter).isVisible = visOfTrace (initState m p e).trace := by
  show ((Steps.componentDidMount m p mkAdapter e).1).isVisible
    = visOfTrace (Steps.componentDidMount m p mkAdapter e).2.2
  have h := vis_mount m p mkAdapter e
  simpa [visOfTrace, mkAdapter] using h

/-- The start branch of renderSteps, as an equation. -/
theorem renderSteps_start_eq (m : EngineModel) (p : Props) (s : AdapterState) (e : EngineState)
    (h : p.enabled = true ∧ 0 < p.steps.length ∧ s.isVisible = false) :
    Steps.renderSteps m p s e =
      ({ s with isVisible := true }, m.goToStepNumber (p.initialStep + 1) (m.start e),
       [.engineStart, .setVisible true, .engineGoTo (p.initialStep + 1)] ++
         (if p.hasOnStart then
            [.callOnStart ((m.goToStepNumber (p.initialStep + 1) (m.start e))._currentStep)]
          else [])) := by
  simp [Steps.renderSteps, h.1, h.2.1, h.2.2]

/-- The disable branch of renderSteps, as an equation. -/
theorem renderSteps_disable_eq (m : EngineModel) (p : Props) (s : AdapterState)
    (e : EngineState) (h : p.enabled = false ∧ s.isVisible = true) :
    Steps.renderSteps m p s e =
      ({ s with isVisible := false }, m.exit e, [.setVisible false, .engineExit]) := by
  simp [Steps.renderSteps, h.1, h.2]

/-- The no-transition branch of renderSteps, as an equation. -/
theorem renderSteps_none_eq (m : EngineModel) (p : Props) (s : AdapterState) (e : EngineState)
    (h1 : ¬(p.enabled = true ∧ 0 < p.steps.length ∧ s.isVisible = false))
    (h2 : ¬(p.enabled = false ∧ s.isVisible = true)) :
    Steps.renderSteps m p s e = (s, e, []) := by
  rw [Steps.renderSteps, if_neg h1, if_neg h2]

/-- Dropping a call-free prefix does not affect the
flag-before-callback ordering check. -/
theorem svbc_append_callfree (A B : List Action) (h : ∀ a ∈ A, isConsumerCall a = false) :
    setVisibleBeforeCalls (A ++ B) = setVisibleBeforeCalls B := by
  induction A with
  | nil => rfl
  | cons a A ih =>
    have ha := h a (List.mem_cons_self a A)
    have hrest := ih (fun b hb => h b (List.mem_cons_of_mem a hb))
    simp [setVisibleBeforeCalls, ha, hrest]

/-- renderSteps updates the flag before invoking any consumer
callback. -/
theorem svbc_renderSteps (m : EngineModel) (p : Props) (s : AdapterState) (e : EngineState) :
    setVisibleBeforeCalls ((Steps.renderSteps m p s e).2.2) = true := by
  unfold Steps.renderSteps
  split
  · by_cases h : p.hasOnStart <;>
      simp [h, setVisibleBeforeCalls, isConsumerCall, isSetVisible]
  · split <;> simp [setVisibleBeforeCalls, isConsumerCall]

/-- Two renderSteps passes in a row (as in componentDidUpdate) still
update the flag before any consumer callback: whenever the first pass
ends in a callback, the second pass emits nothing. -/
theorem svbc_render_render (m : EngineModel) (p : Props) (s : AdapterState)
    (e e2 : EngineState) :
    setVisibleBeforeCalls ((Steps.renderSteps m p s e).2.2 ++
      (Steps.renderSteps m p ((Steps.renderSteps m p s e).1) e2).2.2) = true := by
  by_cases h1 : p.enabled = true ∧ 0 < p.steps.length ∧ s.isVisible = false
  · rw [renderSteps_start_eq m p s e h1]
    have hA : ¬(p.enabled = true ∧ 0 < p.steps.length ∧
        ({ s with isVisible := true } : AdapterState).isVisible = false) := by simp
    have hB : ¬(p.enabled = false ∧
        ({ s with isVisible := true } : AdapterState).isVisible = true) := by simp [h1.1]
    rw [renderSteps_none_eq m p _ e2 hA hB]
    by_cases h : p.hasOnStart <;>
      simp [h, setVisibleBeforeCalls, isConsumerCall, isSetVisible]
  · by_cases h2 : p.enabled = false ∧ s.isVisible = true
    · rw [renderSteps_disable_eq m p s e h2]
      have hA : ¬(p.enabled = true ∧ 0 < p.steps.length ∧
          ({ s with isVisible := false } : AdapterState).isVisible = false) := by simp [h2.1]
      have hB : ¬(p.enabled = false ∧
          ({ s with isVisible := false } : AdapterState).isVisible = true) := by simp
      rw [renderSteps_none_eq m p _ e2 hA hB]
      simp [setVisibleBeforeCalls, isConsumerCall]
    · rw [renderSteps_none_eq m p s e h1 h2]
      simp only [List.nil_append]
      exact svbc_renderSteps m p s e2

/-- configureAndRender updates the flag before invoking any consumer
callback. -/
theorem svbc_configureAndRender (m : EngineModel) (p : Props) (s : AdapterState)
    (e : EngineState) :
    setVisibleBeforeCalls ((Steps.configureAndRender m p s e).2.2) = true := by
  show setVisibleBeforeCalls ((Steps.configureIntroJs p s e).2.2 ++ _) = true
  rw [svbc_append_callfree]
  · exact svbc_renderSteps m p _ _
  · simp [Steps.configureIntroJs, isConsumerCall]

/-- componentDidUpdate updates the flag before invoking any consumer
callback. -/
theorem svbc_update (m : EngineModel) (prev p : Props) (s : AdapterState) (e : EngineState) :
    setVisibleBeforeCalls ((Steps.componentDidUpdate m prev p s e).2.2) = true := by
  unfold Steps.componentDidUpdate
  split
  · show setVisibleBeforeCalls ((Steps.updateConfigPhase m prev p s e).2.2 ++ _) = true
    unfold Steps.updateConfigPhase
    split
    · show setVisibleBeforeCalls
        (((Steps.configureIntroJs p s e).2.2 ++ _) ++ _) = true
      rw [List.append_assoc, svbc_append_callfree]
      · exact svbc_render_render m p _ _ _
      · simp [Steps.configureIntroJs, isConsumerCall]
    · simp only [List.nil_append]
      exact svbc_renderSteps m p s e
  · unfold Steps.updateConfigPhase
    split
    · exact svbc_configureAndRender m p s e
    · rfl

/-- Every machine operation updates the flag before invoking any
consumer callback. -/
theorem svbc_opActions (m : EngineModel) (st : MachineState) (op : Op) :
    setVisibleBeforeCalls (opActions m st op) = true := by
  cases op with
  | update p => exact svbc_update m st.props p st.adapter st.engine
  | exitEvt => rfl
  | beforeExitEvt =>
    cases h : st.props.onBeforeExitRet <;>
      simp [opActions, Steps.onBeforeExit, h, setVisibleBeforeCalls, isConsumerCall,
        isSetVisible]
  | beforeChangeEvt el =>
    show setVisibleBeforeCalls ((Steps.onBeforeChange st.props st.adapter st.engine el).1) = true
    unfold Steps.onBeforeChange
    split
    · rfl
    · split
      next f hf =>
        by_cases hc : f st.engine._currentStep el = some false ∧
            st.props.hasOnPreventChange = true <;>
          simp [hc, setVisibleBeforeCalls, isConsumerCall, isSetVisible]
      next => rfl
  | afterChangeEvt el =>
    show setVisibleBeforeCalls (Steps.onAfterChange st.props st.adapter st.engine el) = true
    unfold Steps.onAfterChange
    split
    · rfl
    · split <;> simp [setVisibleBeforeCalls, isConsumerCall, isSetVisible]
  | changeEvt el =>
    show setVisibleBeforeCalls (Steps.onChange st.props st.adapter st.engine el) = true
    unfold Steps.onChange
    split
    · rfl
    · split <;> simp [setVisibleBeforeCalls, isConsumerCall, isSetVisible]
  | completeEvt =>
    show setVisibleBeforeCalls (Steps.onComplete st.props) = true
    unfold Steps.onComplete
    split <;> simp [setVisibleBeforeCalls, isConsumerCall]
  | rebind dom i => rfl
  | drift f => rfl

/-- Counting configuration pushes distributes over appended traces. -/
theorem countSetOptions_append (A B : List Action) :
    countSetOptions (A ++ B) = countSetOptions A + countSetOptions B := by
  simp [countSetOptions, List.countP_append]

/-- renderSteps never pushes a configuration. -/
theorem count_renderSteps (m : EngineModel) (p : Props) (s : AdapterState) (e : EngineState) :
    countSetOptions ((Steps.renderSteps m p s e).2.2) = 0 := by
  unfold Steps.renderSteps
  split
  · by_cases h : p.hasOnStart <;> simp [h, countSetOptions, isSetOptionsAct]
  · split <;> simp [countSetOptions, isSetOptionsAct]

/-- configureIntroJs pushes exactly one configuration. -/
theorem count_configureIntroJs (p : Props) (s : AdapterState) (e : EngineState) :
    countSetOptions ((Steps.configureIntroJs p s e).2.2) = 1 := by
  simp [Steps.configureIntroJs, countSetOptions, isSetOptionsAct]

/-- configureAndRender pushes exactly one configuration. -/
theorem count_configureAndRender (m : EngineModel) (p : Props) (s : AdapterState)
    (e : EngineState) :
    countSetOptions ((Steps.configureAndRender m p s e).2.2) = 1 := by
  show countSetOptions ((Steps.configureIntroJs p s e).2.2 ++ _) = 1
  rw [countSetOptions_append, count_configureIntroJs, count_renderSteps]

/-- On a configured adapter the configuration block pushes one
configuration exactly when a reference changed. -/
theorem count_updateConfigPhase (m : EngineModel) (prev p : Props) (s : AdapterState)
    (e : EngineState) (h : s.isConfigured = true) :
    countSetOptions ((Steps.updateConfigPhase m prev p s e).2.2)
      = if prev.stepsRef ≠ p.stepsRef ∨ prev.optionsRef ≠ p.optionsRef then 1 else 0 := by
  unfold Steps.updateConfigPhase
  by_cases hx : prev.stepsRef ≠ p.stepsRef ∨ prev.optionsRef ≠ p.optionsRef
  · rw [if_pos (Or.inr hx), if_pos hx]
    exact count_configureAndRender m p s e
  · rw [if_neg ?hna, if_neg hx]
    · rfl
    case hna =>
      intro hc
      rcases hc with hf | hx2
      · rw [h] at hf; exact Bool.noConfusion hf
      · exact hx hx2

/-- On a configured adapter componentDidUpdate pushes one configuration
exactly when a reference changed. -/
theorem count_update (m : EngineModel) (prev p : Props) (s : AdapterState) (e : EngineState)
    (h : s.isConfigured = true) :
    countSetOptions ((Steps.componentDidUpdate m prev p s e).2.2)
      = if prev.stepsRef ≠ p.stepsRef ∨ prev.optionsRef ≠ p.optionsRef then 1 else 0 := by
  unfold Steps.componentDidUpdate
  split
  · show countSetOptions ((Steps.updateConfigPhase m prev p s e).2.2 ++ _) = _
    rw [countSetOptions_append, count_renderSteps, Nat.add_zero]
    exact count_updateConfigPhase m prev p s e h
  · exact count_updateConfigPhase m prev p s e h

/-- renderSteps does not touch the isConfigured flag. -/
theorem conf_renderSteps (m : EngineModel) (p : Props) (s : AdapterState) (e : EngineState) :
    ((Steps.renderSteps m p s e).1).isConfigured = s.isConfigured := by
  unfold Steps.renderSteps
  split
  · rfl
  · split <;> rfl

/-- configureAndRender leaves the adapter configured. -/
theorem conf_configureAndRender (m : EngineModel) (p : Props) (s : AdapterState)
    (e : EngineState) :
    ((Steps.configureAndRender m p s e).1).isConfigured = true := by
  show ((Steps.renderSteps m p _ _).1).isConfigured = true
  rw [conf_renderSteps]
  rfl

/-- The configuration block keeps a configured adapter configured. -/
theorem conf_updateConfigPhase (m : EngineModel) (prev p : Props) (s : AdapterState)
    (e : EngineState) (h : s.isConfigured = true) :
    ((Steps.updateConfigPhase m prev p s e).1).isConfigured = true := by
  unfold Steps.updateConfigPhase
  split
  · exact conf_configureAndRender m p s e
  · exact h

/-- componentDidUpdate keeps a configured adapter configured. -/
theorem conf_update (m : EngineModel) (prev p : Props) (s : AdapterState) (e : EngineState)
    (h : s.isConfigured = true) :
    ((Steps.componentDidUpdate m prev p s e).1).isConfigured = true := by
  unfold Steps.componentDidUpdate
  split
  · show ((Steps.renderSteps m p _ _).1).isConfigured = true
    rw [conf_renderSteps]
    exact conf_updateConfigPhase m prev p s e h
  · exact conf_updateConfigPhase m prev p s e h

/-- Every machine operation keeps a configured adapter configured. -/
theorem conf_runOp (m : EngineModel) (st : MachineState) (op : Op)
    (h : st.adapter.isConfigured = true) :
    ((runOp m st op).adapter).isConfigured = true := by
  cases op with
  | update p => exact conf_update m st.props p st.adapter st.engine h
  | exitEvt => exact h
  | beforeExitEvt => exact h
  | beforeChangeEvt el => exact h
  | afterChangeEvt el => exact h
  | changeEvt el => exact h
  | completeEvt => exact h
  | rebind dom i =>
    cases hm : Steps.updateStepElement dom st.engine i <;> simp [runOp, hm, h]
  | drift f => exact h

/-- The trace of a machine step is the previous trace extended with the
actions of the operation. -/
theorem trace_runOp (m : EngineModel) (st : MachineState) (op : Op) :
    (runOp m st op).trace = st.trace ++ opActions m st op := by
  cases op with
  | update p => rfl
  | exitEvt => rfl
  | beforeExitEvt => rfl
  | beforeChangeEvt el => rfl
  | afterChangeEvt el => rfl
  | changeEvt el => rfl
  | completeEvt => rfl
  | rebind dom i =>
    cases hm : Steps.updateStepElement dom st.engine i <;> simp [runOp, opActions, hm]
  | drift f => simp [runOp, opActions]

/-- The exit handler pushes no configuration and no engine start. -/
theorem quiet_onExit (s : AdapterState) (e : EngineState) :
    countSetOptions ((Steps.onExit s e).2) = 0 ∧
    Action.engineStart ∉ (Steps.onExit s e).2 := by
  simp [Steps.onExit, countSetOptions, isSetOptionsAct]

/-- The before-exit handler pushes no configuration and no engine
start. -/
theorem quiet_onBeforeExit (p : Props) (e : EngineState) :
    countSetOptions ((Steps.onBeforeExit p e).1) = 0 ∧
    Action.engineStart ∉ (Steps.onBeforeExit p e).1 := by
  cases h : p.onBeforeExitRet <;>
    simp [Steps.onBeforeExit, h, countSetOptions, isSetOptionsAct]

/-- The before-change handler pushes no configuration and no engine
start. -/
theorem quiet_onBeforeChange (p : Props) (s : AdapterState) (e : EngineState) (el : Element) :
    countSetOptions ((Steps.onBeforeChange p s e el).1) = 0 ∧
    Action.engineStart ∉ (Steps.onBeforeChange p s e el).1 := by
  unfold Steps.onBeforeChange
  split
  · simp [countSetOptions]
  · split
    next f hf =>
      by_cases hc : f e._currentStep el = some false ∧ p.hasOnPreventChange = true <;>
        simp [hc, countSetOptions, isSetOptionsAct]
    next => simp [countSetOptions]

/-- The after-change handler pushes no configuration and no engine
start. -/
theorem quiet_onAfterChange (p : Props) (s : AdapterState) (e : EngineState) (el : Element) :
    countSetOptions (Steps.onAfterChange p s e el) = 0 ∧
    Action.engineStart ∉ Steps.onAfterChange p s e el := by
  unfold Steps.onAfterChange
  split
  · simp [countSetOptions]
  · split <;> simp [countSetOptions, isSetOptionsAct]

/-- The change handler pushes no configuration and no engine start. -/
theorem quiet_onChange (p : Props) (s : AdapterState) (e : EngineState) (el : Element) :
    countSetOptions (Steps.onChange p s e el) = 0 ∧
    Action.engineStart ∉ Steps.onChange p s e el := by
  unfold Steps.onChange
  split
  · simp [countSetOptions]
  · split <;> simp [countSetOptions, isSetOptionsAct]

/-- The complete handler pushes no configuration and no engine start. -/
theorem quiet_onComplete (p : Props) :
    countSetOptions (Steps.onComplete p) = 0 ∧
    Action.engineStart ∉ Steps.onComplete p := by
  unfold Steps.onComplete
  split <;> simp [countSetOptions, isSetOptionsAct]

/-- The reference-pair inequality matches the strict-inequality test of
componentDidUpdate. -/
theorem pair_ne_iff (prev p : Props) :
    pairOf p ≠ pairOf prev ↔
      (prev.stepsRef ≠ p.stepsRef ∨ prev.optionsRef ≠ p.optionsRef) := by
  unfold pairOf
  rw [Ne, Prod.mk.injEq]
  omega

/-- Starting from a configured machine state, running any operation
sequence pushes one configuration per update whose reference pair
differs from its predecessor. -/
theorem count_run (m : EngineModel) (ops : List Op) :
    ∀ st : MachineState, st.adapter.isConfigured = true →
    countSetOptions (run m st ops).trace
      = countSetOptions st.trace + changesFrom (pairOf st.props) (updatePairs ops) := by
  induction ops with
  | nil =>
    intro st h
    simp [run, updatePairs, changesFrom]
  | cons op rest ih =>
    intro st h
    have hstep : run m st (op :: rest) = run m (runOp m st op) rest := rfl
    rw [hstep, ih (runOp m st op) (conf_runOp m st op h), trace_runOp, countSetOptions_append]
    cases op with
    | update p =>
      have hc : countSetOptions (opActions m st (Op.update p))
          = if st.props.stepsRef ≠ p.stepsRef ∨ st.props.optionsRef ≠ p.optionsRef
            then 1 else 0 :=
        count_update m st.props p st.adapter st.engine h
      have hp : (runOp m st (Op.update p)).props = p := rfl
      rw [hc, hp]
      show countSetOptions st.trace +
          (if st.props.stepsRef ≠ p.stepsRef ∨ st.props.optionsRef ≠ p.optionsRef
           then 1 else 0) + changesFrom (pairOf p) (updatePairs rest)
        = countSetOptions st.trace +
          ((if pairOf p ≠ pairOf st.props then 1 else 0) +
            changesFrom (pairOf p) (updatePairs rest))
      by_cases hcond : st.props.stepsRef ≠ p.stepsRef ∨ st.props.optionsRef ≠ p.optionsRef
      · rw [if_pos hcond, if_pos ((pair_ne_iff st.props p).mpr hcond)]
        omega
      · rw [if_neg hcond, if_neg (fun hq => hcond ((pair_ne_iff st.props p).mp hq))]
        omega
    | exitEvt =>
      show countSetOptions st.trace + countSetOptions ((Steps.onExit st.adapter st.engine).2) +
          changesFrom (pairOf st.props) (updatePairs rest)
        = countSetOptions st.trace + changesFrom (pairOf st.props) (updatePairs rest)
      rw [(quiet_onExit st.adapter st.engine).1]
      omega
    | beforeExitEvt =>
      show countSetOptions st.trace + countSetOptions ((Steps.onBeforeExit st.props st.engine).1) +
          changesFrom (pairOf st.props) (updatePairs rest)
        = countSetOptions st.trace + changesFrom (pairOf st.props) (updatePairs rest)
      rw [(quiet_onBeforeExit st.props st.engine).1]
      omega
    | beforeChangeEvt el =>
      show countSetOptions st.trace +
          countSetOptions ((Steps.onBeforeChange st.props st.adapter st.engine el).1) +
          changesFrom (pairOf st.props) (updatePairs rest)
        = countSetOptions st.trace + changesFrom (pairOf st.props) (updatePairs rest)
      rw [(quiet_onBeforeChange st.props st.adapter st.engine el).1]
      omega
    | afterChangeEvt el =>
      show countSetOptions st.trace +
          countSetOptions (Steps.onAfterChange st.props st.adapter st.engine el) +
          changesFrom (pairOf st.props) (updatePairs rest)
        = countSetOptions st.trace + changesFrom (pairOf st.props) (updatePairs rest)
      rw [(quiet_onAfterChange st.props st.adapter st.engine el).1]
      omega
    | changeEvt el =>
      show countSetOptions st.trace +
          countSetOptions (Steps.onChange st.props st.adapter st.engine el) +
          changesFrom (pairOf st.props) (updatePairs rest)
        = countSetOptions st.trace + changesFrom (pairOf st.props) (updatePairs rest)
      rw [(quiet_onChange st.props st.adapter st.engine el).1]
      omega
    | completeEvt =>
      show countSetOptions st.trace + countSetOptions (Steps.onComplete st.props) +
          changesFrom (pairOf st.props) (updatePairs rest)
        = countSetOptions st.trace + changesFrom (pairOf st.props) (updatePairs rest)
      rw [(quiet_onComplete st.props).1]
      omega
    | rebind dom i =>
      simp only [opActions, runOp]
      cases hm : Steps.updateStepElement dom st.engine i <;>
        simp [hm, countSetOptions, updatePairs]
    | drift f =>
      show countSetOptions st.trace + countSetOptions [] +
          changesFrom (pairOf st.props) (updatePairs rest)
        = countSetOptions st.trace + changesFrom (pairOf st.props) (updatePairs rest)
      simp [countSetOptions]

/-- When the component mounts enabled, it ends up configured with
exactly one configuration push and its initial props. -/
theorem init_facts_enabled (m : EngineModel) (p : Props) (e : EngineState)
    (h : p.enabled = true) :
    ((initState m p e).adapter).isConfigured = true ∧
    countSetOptions (initState m p e).trace = 1 ∧ (initState m p e).props = p := by
  refine ⟨?_, ?_, rfl⟩
  · show ((Steps.componentDidMount m p mkAdapter e).1).isConfigured = true
    unfold Steps.componentDidMount
    rw [if_pos h]
    exact conf_configureAndRender m p mkAdapter e
  · show countSetOptions (Steps.componentDidMount m p mkAdapter e).2.2 = 1
    unfold Steps.componentDidMount
    rw [if_pos h]
    exact count_configureAndRender m p mkAdapter e

/-- renderSteps on an empty step list never issues an engine start. -/
theorem no_start_renderSteps (m : EngineModel) (p : Props) (s : AdapterState) (e : EngineState)
    (h : p.steps = []) :
    Action.engineStart ∉ (Steps.renderSteps m p s e).2.2 := by
  unfold Steps.renderSteps
  split
  next hc =>
    rw [h] at hc
    simp at hc
  next =>
    split <;> simp

/-- configureAndRender on an empty step list never issues an engine
start. -/
theorem no_start_configureAndRender (m : EngineModel) (p : Props) (s : AdapterState)
    (e : EngineState) (h : p.steps = []) :
    Action.engineStart ∉ (Steps.configureAndRender m p s e).2.2 := by
  show Action.engineStart ∉ (Steps.configureIntroJs p s e).2.2 ++ _
  intro hmem
  rcases List.mem_append.1 hmem with h1 | h2
  · simp [Steps.configureIntroJs] at h1
  · exact no_start_renderSteps m p _ _ h h2

/-- The configuration block on an empty step list never issues an
engine start. -/
theorem no_start_updateConfigPhase (m : EngineModel) (prev p : Props) (s : AdapterState)
    (e : EngineState) (h : p.steps = []) :
    Action.engineStart ∉ (Steps.updateConfigPhase m prev p s e).2.2 := by
  unfold Steps.updateConfigPhase
  split
  · exact no_start_configureAndRender m p s e h
  · simp

/-- componentDidUpdate on an empty step list never issues an engine
start. -/
theorem no_start_update (m : EngineModel) (prev p : Props) (s : AdapterState) (e : EngineState)
    (h : p.steps = []) :
    Action.engineStart ∉ (Steps.componentDidUpdate m prev p s e).2.2 := by
  unfold Steps.componentDidUpdate
  split
  · show Action.engineStart ∉ (Steps.updateConfigPhase m prev p s e).2.2 ++ _
    intro hmem
    rcases List.mem_append.1 hmem with h1 | h2
    · exact no_start_updateConfigPhase m prev p s e h h1
    · exact no_start_renderSteps m p _ _ h h2
  · exact no_start_updateConfigPhase m prev p s e h

/-- No operation whose props (if any) carry an empty step list emits an
engine start. -/
theorem no_start_opActions (m : EngineModel) (st : MachineState) (op : Op)
    (hop : ∀ q, op = Op.update q → q.steps = []) :
    Action.engineStart ∉ opActions m st op := by
  cases op with
  | update p => exact no_start_update m st.props p st.adapter st.engine (hop p rfl)
  | exitEvt => exact (quiet_onExit st.adapter st.engine).2
  | beforeExitEvt => exact (quiet_onBeforeExit st.props st.engine).2
  | beforeChangeEvt el => exact (quiet_onBeforeChange st.props st.adapter st.engine el).2
  | afterChangeEvt el => exact (quiet_onAfterChange st.props st.adapter st.engine el).2
  | changeEvt el => exact (quiet_onChange st.props st.adapter st.engine el).2
  | completeEvt => exact (quiet_onComplete st.props).2
  | rebind dom i => simp [opActions]
  | drift f => simp [opActions]

/-- Running operations whose updates all carry empty step lists never
adds an engine start to the trace. -/
theorem no_start_run (m : EngineModel) (ops : List Op) :
    ∀ st : MachineState, Action.engineStart ∉ st.trace →
    (∀ q, Op.update q ∈ ops → q.steps = []) →
    Action.engineStart ∉ (run m st ops).trace := by
  induction ops with
  | nil => exact fun st h _ => h
  | cons op rest ih =>
    intro st h hops
    apply ih (runOp m st op)
    · rw [trace_runOp]
      intro hmem
      rcases List.mem_append.1 hmem with h1 | h2
      · exact h h1
      · exact no_start_opActions m st op
          (fun q hq => hops q (by rw [hq]; exact List.mem_cons_self _ _)) h2
    · exact fun q hq => hops q (List.mem_cons_of_mem op hq)

/-- Mounting with an empty step list never issues an engine start. -/
theorem no_start_init (m : EngineModel) (p : Props) (e : EngineState) (h : p.steps = []) :
    Action.engineStart ∉ (initState m p e).trace := by
  show Action.engineStart ∉ (Steps.componentDidMount m p mkAdapter e).2.2
  unfold Steps.componentDidMount
  split
  · exact no_start_configureAndRender m p mkAdapter e h
  · simp

/-- C1: with enabled props, a non-empty step list and the isVisible flag
still false, renderSteps issues the engine start, sets isVisible to
true, calls goToStepNumber with the one-based initialStep + 1, and then,
exactly when an onStart callback is supplied, invokes it with the
resulting current step index of the engine, in this order. -/
theorem C1_renderSteps_start_order (m : EngineModel) (p : Props) (s : AdapterState)
    (e : EngineState) (h1 : p.enabled = true) (h2 : 0 < p.steps.length)
    (h3 : s.isVisible = false) :
    Steps.renderSteps m p s e =
      ({ s with isVisible := true },
       m.goToStepNumber (p.initialStep + 1) (m.start e),
       [.engineStart, .setVisible true, .engineGoTo (p.initialStep + 1)] ++
         (if p.hasOnStart then
            [.callOnStart ((m.goToStepNumber (p.initialStep + 1) (m.start e))._currentStep)]
          else [])) := by
  simp [Steps.renderSteps, h1, h2, h3]

/-- Witness for C1 at concrete inputs. -/
theorem C1_renderSteps_start_order_witness :
    startProps.enabled = true ∧ 0 < startProps.steps.length ∧ mkAdapter.isVisible = false ∧
    Steps.renderSteps idEngineModel startProps mkAdapter sampleEngine =
      ({ mkAdapter with isVisible := true },
       idEngineModel.goToStepNumber (startProps.initialStep + 1) (idEngineModel.start sampleEngine),
       [.engineStart, .setVisible true, .engineGoTo (startProps.initialStep + 1)] ++
         (if startProps.hasOnStart then
            [.callOnStart ((idEngineModel.goToStepNumber (startProps.initialStep + 1)
              (idEngineModel.start sampleEngine))._currentStep)]
          else [])) :=
  ⟨rfl, by decide, rfl,
    C1_renderSteps_start_order idEngineModel startProps mkAdapter sampleEngine rfl (by decide) rfl⟩

/-- C3: while isVisible is false, a before-change event returns true
without invoking the consumer before-change callback, and after-change
and change events return without invoking their consumer callbacks;
an exit event, for every prior adapter state, first sets isVisible to
false and then invokes the consumer onExit with the current step index
of the engine. -/
theorem C3_gate_absorbs_and_exit_forwards (p : Props) (s : AdapterState) (e : EngineState)
    (el1 el2 el3 : Element) (h : s.isVisible = false) :
    Steps.onBeforeChange p s e el1 = ([], [], some true) ∧
    Steps.onAfterChange p s e el2 = [] ∧
    Steps.onChange p s e el3 = [] ∧
    ∀ s2 : AdapterState, Steps.onExit s2 e =
      ({ s2 with isVisible := false }, [.setVisible false, .callOnExit e._currentStep]) := by
  refine ⟨?_, ?_, ?_, fun s2 => rfl⟩ <;>
    simp [Steps.onBeforeChange, Steps.onAfterChange, Steps.onChange, h]

/-- Witness for C3 at concrete inputs. -/
theorem C3_gate_absorbs_and_exit_forwards_witness :
    mkAdapter.isVisible = false ∧
    (Steps.onBeforeChange vetoProps mkAdapter sampleEngine sampleEl = ([], [], some true) ∧
     Steps.onAfterChange vetoProps mkAdapter sampleEngine sampleEl = [] ∧
     Steps.onChange vetoProps mkAdapter sampleEngine sampleEl = [] ∧
     ∀ s2 : AdapterState, Steps.onExit s2 sampleEngine =
       ({ s2 with isVisible := false },
        [.setVisible false, .callOnExit sampleEngine._currentStep])) :=
  ⟨rfl, C3_gate_absorbs_and_exit_forwards vetoProps mkAdapter sampleEngine
    sampleEl sampleEl sampleEl rfl⟩

/-- C4: on disabled props while visible, renderSteps first sets
isVisible to false and only then calls the engine exit, so the adapter
state it leaves behind already carries isVisible = false when the exit
relay handler later fires. -/
theorem C4_disable_sets_flag_before_exit (m : EngineModel) (p : Props) (s : AdapterState)
    (e : EngineState) (h1 : p.enabled = false) (h2 : s.isVisible = true) :
    Steps.renderSteps m p s e =
      ({ s with isVisible := false }, m.exit e, [.setVisible false, .engineExit]) ∧
    ((Steps.renderSteps m p s e).1).isVisible = false := by
  constructor <;> simp [Steps.renderSteps, h1, h2]

/-- Witness for C4 at concrete inputs. -/
theorem C4_disable_sets_flag_before_exit_witness :
    disabledProps.enabled = false ∧ visibleAdapter.isVisible = true ∧
    (Steps.renderSteps idEngineModel disabledProps visibleAdapter sampleEngine =
      ({ visibleAdapter with isVisible := false }, idEngineModel.exit sampleEngine,
       [.setVisible false, .engineExit]) ∧
     ((Steps.renderSteps idEngineModel disabledProps visibleAdapter sampleEngine).1).isVisible
       = false) :=
  ⟨rfl, rfl,
    C4_disable_sets_flag_before_exit idEngineModel disabledProps visibleAdapter sampleEngine
      rfl rfl⟩

/-- C5: when the tour is visible, the consumer before-change callback
returns exactly false and a prevent-change callback is supplied, the
before-change handler synchronously only invokes the consumer
before-change callback and returns false to the engine, never invoking
the prevent-change callback synchronously; instead it schedules one
deferred task, and that task, run on a later turn against an engine
state whose current step is unchanged (the transition was blocked),
invokes the prevent-change callback with the pre-transition step
index. -/
theorem C5_prevent_change_deferred (p : Props) (s : AdapterState) (e : EngineState)
    (el : Element) (f : Nat → Element → Option Bool)
    (h1 : s.isVisible = true) (h2 : p.onBeforeChangeRet = some f)
    (h3 : f e._currentStep el = some false) (h4 : p.hasOnPreventChange = true) :
    Steps.onBeforeChange p s e el =
      ([.callOnBeforeChange e._currentStep el], [.preventChange], some false) ∧
    (∀ i, Action.callOnPreventChange i ∉ (Steps.onBeforeChange p s e el).1) ∧
    (∀ e2 : EngineState, e2._currentStep = e._currentStep →
      runTask .preventChange e2 = .callOnPreventChange e._currentStep) := by
  have hmain : Steps.onBeforeChange p s e el =
      ([.callOnBeforeChange e._currentStep el], [.preventChange], some false) := by
    simp [Steps.onBeforeChange, h1, h2, h3, h4]
  refine ⟨hmain, ?_, ?_⟩
  · intro i
    rw [hmain]
    simp
  · intro e2 he
    simp [runTask, he]

/-- Witness for C5 at concrete inputs. -/
theorem C5_prevent_change_deferred_witness :
    visibleAdapter.isVisible = true ∧
    vetoProps.onBeforeChangeRet = some vetoFun ∧
    vetoFun sampleEngine._currentStep sampleEl = some false ∧
    vetoProps.hasOnPreventChange = true ∧
    (Steps.onBeforeChange vetoProps visibleAdapter sampleEngine sampleEl =
      ([.callOnBeforeChange sampleEngine._currentStep sampleEl], [.preventChange], some false) ∧
     (∀ i, Action.callOnPreventChange i ∉
        (Steps.onBeforeChange vetoProps visibleAdapter sampleEngine sampleEl).1) ∧
     (∀ e2 : EngineState, e2._currentStep = sampleEngine._currentStep →
        runTask .preventChange e2 = .callOnPreventChange sampleEngine._currentStep)) :=
  ⟨rfl, rfl, rfl, rfl,
    C5_prevent_change_deferred vetoProps visibleAdapter sampleEngine sampleEl vetoFun
      rfl rfl rfl rfl⟩

/-- C8: configureIntroJs replaces the intro content of each step by its
static-markup rendering exactly when it is a renderable node, passes
plain strings through unchanged, pushes into the engine the options
record merged with the synthesized steps array where the synthesized
steps key overrides any steps key present in options, and sets
isConfigured to true. -/
theorem C8_configure_sanitizes_and_merges (p : Props) (s : AdapterState) (e : EngineState) :
    Steps.configureIntroJs p s e =
      ({ s with isConfigured := true },
       { e with _options := mergeConfig p.options (p.steps.map Steps.sanitizeStep) },
       [.engineSetOptions (mergeConfig p.options (p.steps.map Steps.sanitizeStep))]) ∧
    (∀ step n, step.intro = Intro.node n →
      Steps.sanitizeStep step = { step with intro := .txt (renderToStaticMarkup (.node n)) }) ∧
    (∀ step str, step.intro = Intro.txt str → Steps.sanitizeStep step = step) ∧
    (∀ o os stepsArr, mergeConfig { o with steps := os } stepsArr = mergeConfig o stepsArr) := by
  refine ⟨rfl, ?_, ?_, fun o os stepsArr => rfl⟩
  · intro step n hn
    simp [Steps.sanitizeStep, hn, isValidElement]
  · intro step str hs
    simp [Steps.sanitizeStep, hs, isValidElement]

/-- Witness for C8 at concrete inputs. -/
theorem C8_configure_sanitizes_and_merges_witness :
    sampleStepB.intro = Intro.node { markup := "<b>rich</b>" } ∧
    Steps.configureIntroJs startProps mkAdapter sampleEngine =
      ({ mkAdapter with isConfigured := true },
       { sampleEngine with
          _options := mergeConfig startProps.options (startProps.steps.map Steps.sanitizeStep) },
       [.engineSetOptions
          (mergeConfig startProps.options (startProps.steps.map Steps.sanitizeStep))]) ∧
    Steps.sanitizeStep sampleStepB =
      { sampleStepB with
          intro := .txt (renderToStaticMarkup (.node { markup := "<b>rich</b>" })) } :=
  ⟨rfl,
    (C8_configure_sanitizes_and_merges startProps mkAdapter sampleEngine).1,
    (C8_configure_sanitizes_and_merges startProps mkAdapter sampleEngine).2.1
      sampleStepB { markup := "<b>rich</b>" } rfl⟩

/-- C9: updateStepElement looks up a live element by the selector the
engine configuration stores for the step at the given (in-bounds) index;
when the lookup fails it changes nothing and reports nothing, and when
it succeeds it replaces the element reference of the engine item at that
index and sets its position to the configured position, falling back to
auto when none (or an empty string) was configured. -/
theorem C9_updateStepElement_rebind (dom : String → Option Element) (e : EngineState)
    (i : Nat) (step : Step) (hstep : e._options.steps[i]? = some step) :
    (dom step.element = none → Steps.updateStepElement dom e i = some e) ∧
    (∀ el it, dom step.element = some el → e._introItems[i]? = some it →
      Steps.updateStepElement dom e i =
        some { e with _introItems := e._introItems.set i (itemRebound it el step) }) ∧
    (∀ it el2 step2, (itemRebound it el2 step2).element = some el2 ∧
      (itemRebound it el2 step2).position = orAuto step2.position ∧
      (itemRebound it el2 step2).data = it.data) ∧
    orAuto none = "auto" ∧ (∀ str, str ≠ "" → orAuto (some str) = str) := by
  refine ⟨?_, ?_, fun it el2 step2 => ⟨rfl, rfl, rfl⟩, rfl, ?_⟩
  · intro hdom
    simp [Steps.updateStepElement, hstep, hdom]
  · intro el it hdom hit
    simp [Steps.updateStepElement, hstep, hdom, hit, itemRebound]
  · intro str hstr
    simp [orAuto, hstr]

/-- Witness for C9 at concrete inputs. -/
theorem C9_updateStepElement_rebind_witness :
    rebindEngine._options.steps[1]? = some sampleStepB ∧
    sampleDom sampleStepB.element = some sampleEl ∧
    rebindEngine._introItems[1]? = some sampleItem ∧
    Steps.updateStepElement sampleDom rebindEngine 1 =
      some { rebindEngine with
        _introItems := rebindEngine._introItems.set 1 (itemRebound sampleItem sampleEl sampleStepB) } ∧
    orAuto none = "auto" :=
  ⟨rfl, rfl, rfl,
    (C9_updateStepElement_rebind sampleDom rebindEngine 1 sampleStepB rfl).2.1
      sampleEl sampleItem rfl rfl,
    (C9_updateStepElement_rebind sampleDom rebindEngine 1 sampleStepB rfl).2.2.2.1⟩

/-- C2: over every operation sequence from a mounted component, the
isVisible flag equals the trace-derived visibility (an engine start was
issued and neither an engine exit call nor a relayed exit event occurred
since); moreover every single operation updates the flag strictly
before invoking any consumer callback, so every callback observes the
already-updated flag. -/
theorem C2_isVisible_iff_started :
    (∀ (m : EngineModel) (p0 : Props) (e0 : EngineState) (ops : List Op),
      ((run m (initState m p0 e0) ops).adapter).isVisible
        = visOfTrace (run m (initState m p0 e0) ops).trace) ∧
    (∀ (m : EngineModel) (st : MachineState) (op : Op),
      setVisibleBeforeCalls (opActions m st op) = true) :=
  ⟨fun m p0 e0 ops => vis_run m ops (initState m p0 e0) (vis_init m p0 e0),
   svbc_opActions⟩

/-- C6 counterexample: mounting disabled with reference pair (0, 0) and
then updating to a fresh steps reference configures the engine only
once, although the lifetime saw two distinct reference pairs, so
configuration does not run exactly once per distinct pair. -/
theorem C6_counterexample_disabled_mount :
    countSetOptions (run idEngineModel (initState idEngineModel mountDisabledProps sampleEngine)
      [Op.update movedRefProps]).trace = 1 ∧
    distinctPairCount mountDisabledProps [Op.update movedRefProps] = 2 := by
  constructor
  · decide
  · decide

/-- C6 (amended): when the component mounts enabled, Configuration Sync
runs exactly once per distinct consecutive (steps reference, options
reference) pair over the whole lifetime, regardless of interleaved
events or prop changes that touch neither reference. -/
theorem C6_amended_configure_once_per_pair (m : EngineModel) (p0 : Props) (e0 : EngineState)
    (ops : List Op) (h : p0.enabled = true) :
    countSetOptions (run m (initState m p0 e0) ops).trace = distinctPairCount p0 ops := by
  obtain ⟨hc, hn, hp⟩ := init_facts_enabled m p0 e0 h
  rw [count_run m ops (initState m p0 e0) hc, hn, hp, distinctPairCount]

/-- Witness for the amended C6 at concrete inputs. -/
theorem C6_amended_configure_once_per_pair_witness :
    startProps.enabled = true ∧
    countSetOptions (run idEngineModel (initState idEngineModel startProps sampleEngine)
        [Op.update disabledProps, Op.completeEvt]).trace
      = distinctPairCount startProps [Op.update disabledProps, Op.completeEvt] :=
  ⟨rfl,
    C6_amended_configure_once_per_pair idEngineModel startProps sampleEngine
      [Op.update disabledProps, Op.completeEvt] rfl⟩

/-- C7: when the mount props and every later update carry an empty step
list, no engine start is ever issued, whatever the enabled flag does and
however many times the visibility re-evaluation runs. -/
theorem C7_empty_steps_never_starts (m : EngineModel) (p0 : Props) (e0 : EngineState)
    (ops : List Op) (h0 : p0.steps = [])
    (hops : ∀ q, Op.update q ∈ ops → q.steps = []) :
    Action.engineStart ∉ (run m (initState m p0 e0) ops).trace :=
  no_start_run m ops (initState m p0 e0) (no_start_init m p0 e0 h0) hops

/-- Witness for C7 at concrete inputs. -/
theorem C7_empty_steps_never_starts_witness :
    emptyProps.steps = [] ∧
    (∀ q, Op.update q ∈ [Op.exitEvt, Op.update emptyDisabledProps] → q.steps = []) ∧
    Action.engineStart ∉ (run idEngineModel (initState idEngineModel emptyProps sampleEngine)
      [Op.exitEvt, Op.update emptyDisabledProps]).trace :=
  ⟨rfl,
   by
     intro q hq
     simp at hq
     subst hq
     rfl,
   C7_empty_steps_never_starts idEngineModel emptyProps sampleEngine
     [Op.exitEvt, Op.update emptyDisabledProps] rfl
     (by
       intro q hq
       simp at hq
       subst hq
       rfl)⟩

/-- C10: the isConfigured flag starts false at construction, every
machine operation keeps a configured adapter configured, and on a
configured adapter componentDidUpdate reconfigures exactly when the
steps or options reference differs from the previous props, so a
reference change never clears the flag and only the reference
comparison triggers reconfiguration afterwards. -/
theorem C10_isConfigured_monotone :
    mkAdapter.isConfigured = false ∧
    (∀ (m : EngineModel) (st : MachineState) (op : Op),
      st.adapter.isConfigured = true → ((runOp m st op).adapter).isConfigured = true) ∧
    (∀ (m : EngineModel) (prev p : Props) (s : AdapterState) (e : EngineState),
      s.isConfigured = true →
      countSetOptions ((Steps.componentDidUpdate m prev p s e).2.2)
        = if prev.stepsRef ≠ p.stepsRef ∨ prev.optionsRef ≠ p.optionsRef then 1 else 0) :=
  ⟨rfl, conf_runOp, count_update⟩

/-- Witness for C10 at concrete inputs. -/
theorem C10_isConfigured_monotone_witness :
    mkAdapter.isConfigured = false ∧
    confSampleState.adapter.isConfigured = true ∧
    ((runOp idEngineModel confSampleState Op.exitEvt).adapter).isConfigured = true ∧
    visibleAdapter.isConfigured = true ∧
    countSetOptions ((Steps.componentDidUpdate idEngineModel startProps movedRefProps
        visibleAdapter sampleEngine).2.2)
      = if startProps.stepsRef ≠ movedRefProps.stepsRef ∨
          startProps.optionsRef ≠ movedRefProps.optionsRef then 1 else 0 :=
  ⟨C10_isConfigured_monotone.1, rfl,
   C10_isConfigured_monotone.2.1 idEngineModel confSampleState Op.exitEvt rfl, rfl,
   C10_isConfigured_monotone.2.2 idEngineModel startProps movedRefProps visibleAdapter
     sampleEngine rfl⟩

end IntroReact
